import Mathlib

/-!
Verification of the rbot gomoku engine (src/main.rs) against its
natural-language specification.

The Rust program is shallowly embedded below.  Machine integers are
modelled as `Nat`/`Int` (the scores are `i32` in the source but stay far
below the overflow bound, so plain `Int` is faithful; `usize`
coordinates are `Nat`).  The two calls to `rand::thread_rng` (choosing
among matching opening-book sequences, and among equally scored cells)
are modelled by threading explicit pick parameters `dpick`/`tpick`; the
Rust `choose` on a slice returns `None` exactly when the slice is
empty, which `chooseIdx` mirrors.  A Rust panic (the `unwrap` inside
`StrOrUsize::as_usize`) is modelled by the handler returning `none`;
every normal reply is `some`.
-/

/-- `BOARD_SIZE` from the source. -/
def boardSize : Nat := 31

/-- `CENTER` from the source. -/
def center : Nat := 15

/-- `enum StrOrUsize { Str(String), Num(usize) }` from the source. -/
inductive StrOrUsize where
  | str (s : String)
  | num (n : Nat)
deriving DecidableEq

/-- Accumulate a nonempty digit string into a number; `none` on the first
non-digit character. -/
def digitsVal : List Char → Nat → Option Nat
  | [], acc => some acc
  | c :: cs, acc =>
    if c.isDigit then digitsVal cs (acc * 10 + (c.toNat - 48)) else none

/-- Rust `str::parse::<usize>`: optional leading plus sign followed by a
nonempty digit string (overflow, which would also panic, is not modelled;
no claim involves coordinates near `usize::MAX`). -/
def parseUsize (s : String) : Option Nat :=
  match s.toList with
  | [] => none
  | '+' :: [] => none
  | '+' :: c :: cs => digitsVal (c :: cs) 0
  | cs => digitsVal cs 0

/-- `StrOrUsize::as_usize`.  The source calls `.unwrap()` on the parse
result, so a non-numeric string panics: that abort is modelled as `none`. -/
def StrOrUsize.asUsize : StrOrUsize → Option Nat
  | .str s => parseUsize s
  | .num n => some n

/-- `struct CoordIn { x, y : StrOrUsize }` from the source. -/
structure CoordIn where
  x : StrOrUsize
  y : StrOrUsize
deriving DecidableEq

/-- `struct Command { command, opponentMove }` from the source (already
decoded from JSON; JSON syntax errors are answered by the transport arm
`Err(_) => "Wrong JSON format"` and carry no state change). -/
structure Command where
  command : String
  opponentMove : Option CoordIn
deriving DecidableEq

/-- The three shapes of reply the handler serializes: a `MoveResponse`,
a `Reply` acknowledgement, or an `error(msg)` map. -/
inductive Resp where
  | mv (x y : Nat)
  | reply (msg : String)
  | err (msg : String)
deriving DecidableEq

/-- The fixed `all_debuts` table from `GameState::new`. -/
def debutTable : List (List (Nat × Nat)) :=
  [ [(15, 15), (16, 15), (14, 14), (13, 15)]
  , [(15, 15), (15, 14), (16, 16), (14, 14)]
  , [(15, 15), (14, 15), (16, 14), (13, 16)]
  , [(15, 15), (16, 16), (14, 14), (15, 13)]
  , [(15, 15), (17, 15), (13, 13), (14, 16)]
  , [(15, 15), (16, 16), (17, 17), (18, 18)]
  , [(15, 15), (14, 14), (13, 13), (12, 12)]
  , [(15, 15), (14, 16), (13, 17), (12, 18)]
  , [(15, 15), (16, 14), (17, 13), (18, 12)]
  , [(15, 15), (15, 16), (15, 17), (15, 18)]
  , [(15, 15), (15, 14), (15, 13), (15, 12)]
  , [(15, 15), (16, 15), (17, 15), (18, 15)]
  , [(15, 15), (14, 16), (13, 17), (14, 18)]
  , [(15, 15), (16, 14), (17, 13), (16, 12)]
  , [(15, 15), (14, 14), (13, 13), (14, 12)]
  , [(15, 15), (18, 15), (16, 16), (14, 15)]
  , [(15, 15), (12, 15), (14, 14), (16, 15)] ]

/-- `struct GameState` from the source.  `my_board` is the
`Vec<Vec<bool>>` indexed `[y][x]`. -/
structure GameState where
  my_board : List (List Bool)
  opponent_moves : List (Nat × Nat)
  first_move : Bool
  all_debuts : List (List (Nat × Nat))
  total_moves : List (Nat × Nat)
deriving DecidableEq

/-- `vec![vec![false; BOARD_SIZE]; BOARD_SIZE]`. -/
def freshBoard : List (List Bool) :=
  List.replicate boardSize (List.replicate boardSize false)

/-- `GameState::new`. -/
def GameState.new : GameState :=
  { my_board := freshBoard
  , opponent_moves := []
  , first_move := true
  , all_debuts := debutTable
  , total_moves := [] }

/-- `GameState::reset`: `row.fill(false)` on every row (preserving the
row lengths), clear both histories, set the first-move flag. -/
def GameState.reset (s : GameState) : GameState :=
  { s with
    my_board := s.my_board.map (fun row => row.map (fun _ => false))
  , opponent_moves := []
  , first_move := true
  , total_moves := [] }

/-- `GameState::is_my_move`: `self.my_board[y][x]`.  The source indexes
directly (all reachable call sites are in bounds); out-of-range lookups
default to `false`. -/
def GameState.is_my_move (s : GameState) (x y : Nat) : Bool :=
  (s.my_board.getD y []).getD x false

/-- `GameState::is_opponent_move`: `self.opponent_moves.contains(&(x, y))`. -/
def GameState.is_opponent_move (s : GameState) (x y : Nat) : Bool :=
  s.opponent_moves.contains (x, y)

/-- `GameState::is_empty`. -/
def GameState.is_empty (s : GameState) (x y : Nat) : Bool :=
  !s.is_my_move x y && !s.is_opponent_move x y

/-- The bounds test from `count_in_line`/`is_open_ended`:
`nx < 0 || ny < 0 || nx >= BOARD_SIZE || ny >= BOARD_SIZE` negated. -/
def inBounds (nx ny : Int) : Bool :=
  decide (0 ≤ nx) && decide (0 ≤ ny) && decide (nx < 31) && decide (ny < 31)

/-- The per-side occupancy lookup inside `count_in_line` (only consulted
on in-bounds coordinates, where `toNat` is exact). -/
def occupiedFor (s : GameState) (nx ny : Int) (isMy : Bool) : Bool :=
  if isMy then s.is_my_move nx.toNat ny.toNat else s.is_opponent_move nx.toNat ny.toNat

/-- One signed arm of the `while step < 5` loop of `count_in_line`:
counts consecutive occupied cells outward from `(x, y)`, stopping at the
first out-of-bounds or non-occupied cell, at most `fuel` steps (the
source starts at `step = 1` and stops before `step = 5`, hence fuel 4). -/
def runSteps (s : GameState) (x y : Nat) (dx dy dir : Int) (isMy : Bool) :
    Nat → Nat → Int
  | 0, _ => 0
  | fuel + 1, step =>
    let nx : Int := (x : Int) + dir * dx * (step : Int)
    let ny : Int := (y : Int) + dir * dy * (step : Int)
    if inBounds nx ny && occupiedFor s nx ny isMy then
      1 + runSteps s x y dx dy dir isMy fuel (step + 1)
    else 0

/-- `GameState::count_in_line`: 1 for the (hypothetically placed) stone at
`(x, y)` plus the run lengths in the two signed directions, each capped at 4. -/
def countInLine (s : GameState) (x y : Nat) (dx dy : Int) (isMy : Bool) : Int :=
  1 + runSteps s x y dx dy (-1) isMy 4 1 + runSteps s x y dx dy 1 isMy 4 1

/-- One flank test of `is_open_ended`: the neighbouring cell in signed
direction `dir` is in bounds and empty. -/
def endEmpty (s : GameState) (x y : Nat) (dx dy dir : Int) : Bool :=
  let nx : Int := (x : Int) + dir * dx
  let ny : Int := (y : Int) + dir * dy
  inBounds nx ny && s.is_empty nx.toNat ny.toNat

/-- `GameState::is_open_ended`: both flanking cells empty (the source
counts open ends and compares with 2; its `is_my` parameter is unused). -/
def GameState.is_open_ended (s : GameState) (x y : Nat) (dx dy : Int)
    (_isMy : Bool) : Bool :=
  ((if endEmpty s x y dx dy (-1) then (1 : Nat) else 0) +
    (if endEmpty s x y dx dy 1 then 1 else 0)) == 2

/-- The `match opp_count { 5 => 100_000, 4 => 10_000, 3 => 2000, 2 => 400,
_ => 0 }` table from `find_best_move` (bonus for blocking an opponent run). -/
def oppRunBonus (n : Int) : Int :=
  if n = 5 then 100000
  else if n = 4 then 10000
  else if n = 3 then 2000
  else if n = 2 then 400
  else 0

/-- The `match my_count { 5 => 100_000, 4 => 5000, 3 => 1000, 2 => 300,
_ => 0 }` table from `find_best_move` (bonus for extending an own run). -/
def myRunBonus (n : Int) : Int :=
  if n = 5 then 100000
  else if n = 4 then 5000
  else if n = 3 then 1000
  else if n = 2 then 300
  else 0

/-- The score added by one direction of the per-cell loop in
`find_best_move`: the open-three bonuses plus the two run-bonus tables. -/
def dirContrib (s : GameState) (x y : Nat) (dx dy : Int) : Int :=
  let myCount := countInLine s x y dx dy true
  let oppCount := countInLine s x y dx dy false
  let myOpen := s.is_open_ended x y dx dy true
  let oppOpen := s.is_open_ended x y dx dy false
  (if oppCount == 3 && oppOpen then 2500 else 0) +
    ((if myCount == 3 && myOpen then 1500 else 0) +
      (oppRunBonus oppCount + myRunBonus myCount))

/-- The `[(1, 0), (0, 1), (1, 1), (1, -1)]` direction list. -/
def directions : List (Int × Int) := [(1, 0), (0, 1), (1, 1), (1, -1)]

/-- One direction of the per-cell loop of `find_best_move`, acting on the
accumulator `(score, critical_block, open_threes_my, open_threes_opp)`. -/
def dirStep (s : GameState) (x y : Nat) (acc : Int × Bool × Nat × Nat)
    (d : Int × Int) : Int × Bool × Nat × Nat :=
  let myCount := countInLine s x y d.1 d.2 true
  let oppCount := countInLine s x y d.1 d.2 false
  let myOpen := s.is_open_ended x y d.1 d.2 true
  let oppOpen := s.is_open_ended x y d.1 d.2 false
  ( acc.1 + dirContrib s x y d.1 d.2
  , acc.2.1 || decide (4 ≤ oppCount)
  , acc.2.2.1 + (if myCount == 3 && myOpen then 1 else 0)
  , acc.2.2.2 + (if oppCount == 3 && oppOpen then 1 else 0) )

/-- The full score `find_best_move` assigns to one candidate cell: the four
direction contributions, the double-open-three bonuses, the critical-block
bonus, minus the Manhattan distance from the center. -/
def scoreCell (s : GameState) (x y : Nat) : Int :=
  let r := directions.foldl (dirStep s x y) (0, false, 0, 0)
  let sc := r.1
  let sc := sc + (if 2 ≤ r.2.2.1 then 5000 else 0)
  let sc := sc + (if 2 ≤ r.2.2.2 then 7000 else 0)
  let sc := sc + (if r.2.1 then 100000 else 0)
  sc - ((((x : Int) - 15).natAbs + (((y : Int) - 15).natAbs) : Nat) : Int)

/-- The cell iteration order of `find_best_move`: `y` outer, `x` inner. -/
def cells : List (Nat × Nat) :=
  (List.range (31 * 31)).map (fun i => (i % 31, i / 31))

/-- `i32::MIN`, the initial `best_score`. -/
def i32Min : Int := -2147483648

/-- The body of the cell loop of `find_best_move`, acting on
`(best_score, best_moves)`: skip occupied cells, restart the candidate
list on a strictly better score, append on an equal score. -/
def bmStep (s : GameState) (acc : Int × List (Nat × Nat)) (c : Nat × Nat) :
    Int × List (Nat × Nat) :=
  if s.is_empty c.1 c.2 then
    if acc.1 < scoreCell s c.1 c.2 then (scoreCell s c.1 c.2, [c])
    else if scoreCell s c.1 c.2 = acc.1 then (acc.1, acc.2 ++ [c])
    else acc
  else acc

/-- `best_score` and `best_moves` after the full scan of `find_best_move`. -/
def bestFold (s : GameState) : Int × List (Nat × Nat) :=
  cells.foldl (bmStep s) (i32Min, [])

/-- Rust's `slice::choose(&mut rng)` with the random draw made explicit:
`none` exactly on the empty slice, otherwise the element at the drawn
index (any index can be drawn; uniformity is the distribution over
`pick`). -/
def chooseIdx (l : List α) (pick : Nat) : Option α :=
  l[pick % l.length]?

/-- The `i >= debut.len() || debut[i] != self.total_moves[i]` loop of
`get_debut_move`: `tm` agrees with `d` position by position over the
whole of `tm` (so `tm` is an initial segment of `d`, equality allowed). -/
def leadsOrEq : List (Nat × Nat) → List (Nat × Nat) → Bool
  | [], _ => true
  | _ :: _, [] => false
  | a :: ts, b :: ds => a == b && leadsOrEq ts ds

/-- `tm` is a proper initial segment of `d`. -/
def strictLeads (tm d : List (Nat × Nat)) : Bool :=
  leadsOrEq tm d && decide (tm.length < d.length)

/-- `GameState::get_debut_move` with the random choice among surviving
sequences made explicit as `dpick` (the source returns `None` when no
sequence survives; indexing the empty list also yields `none`). -/
def getDebutMove (s : GameState) (dpick : Nat) : Option (Nat × Nat) :=
  let tmc := s.total_moves.length
  let valid := s.all_debuts.filter (fun d => leadsOrEq s.total_moves d)
  match valid[dpick % valid.length]? with
  | none => none
  | some debut =>
    if tmc < debut.length then
      match debut[tmc]? with
      | some nxt => if s.is_empty nxt.1 nxt.2 then some nxt else none
      | none => none
    else none

/-- `GameState::find_best_move`: the opening book first, then the full
scan with the random tie-break made explicit as `tpick`. -/
def findBestMove (s : GameState) (dpick tpick : Nat) : Option (Nat × Nat) :=
  match getDebutMove s dpick with
  | some m => some m
  | none => chooseIdx (bestFold s).2 tpick

/-- `game.my_board[y][x] = true`. -/
def setCell (b : List (List Bool)) (x y : Nat) : List (List Bool) :=
  b.set y ((b.getD y []).set x true)

/-- The opponent-recording step of the `"move"` arm: push to both
histories unless the coordinate is already a recorded opponent move. -/
def recordOpp (s : GameState) (x y : Nat) : GameState :=
  if s.is_opponent_move x y then s
  else
    { s with
      opponent_moves := s.opponent_moves ++ [(x, y)]
    , total_moves := s.total_moves ++ [(x, y)] }

/-- The engine's own placement in the `"move"` arm: mark the board and
push to `total_moves`. -/
def placeMine (s : GameState) (x y : Nat) : GameState :=
  { s with
    my_board := setCell s.my_board x y
  , total_moves := s.total_moves ++ [(x, y)] }

/-- One decoded command processed by `handle_client` (the body of the
`Ok(cmd) => match cmd.command.as_str()` dispatch).  Returns the reply and
the updated shared state, or `none` when the source would panic (the
`unwrap` inside `as_usize`). -/
def handleCommand (s : GameState) (c : Command) (dpick tpick : Nat) :
    Option (Resp × GameState) :=
  if c.command = ("start") then
    if s.first_move then
      some (Resp.mv center center,
        { s with my_board := setCell s.my_board center center
               , first_move := false })
    else some (Resp.err ("Not first move"), s)
  else if c.command = ("move") then
    match c.opponentMove with
    | some ci =>
      match ci.x.asUsize with
      | none => none
      | some x =>
        match ci.y.asUsize with
        | none => none
        | some y =>
          let s1 := recordOpp s x y
          match findBestMove s1 dpick tpick with
          | some bm =>
            if s1.is_empty bm.1 bm.2 then
              some (Resp.mv bm.1 bm.2, placeMine s1 bm.1 bm.2)
            else some (Resp.err ("Move already taken"), s1)
          | none => some (Resp.err ("No valid move found"), s1)
    | none => some (Resp.err ("No opponent move"), s)
  else if c.command = ("reset") then
    some (Resp.reply ("ok"), s.reset)
  else some (Resp.err ("Unknown command"), s)

/-- The `"start"` command value. -/
def startCmd : Command := { command := "start", opponentMove := none }

/-- A numeric `"move"` command value. -/
def moveCmd (x y : Nat) : Command :=
  { command := "move"
  , opponentMove := some { x := StrOrUsize.num x, y := StrOrUsize.num y } }

/-- Run a list of commands (each with its two random picks) through the
handler loop; `none` as soon as one command panics. -/
def runCmds : GameState → List (Command × Nat × Nat) → Option GameState
  | s, [] => some s
  | s, (c, d, t) :: rest =>
    match handleCommand s c d t with
    | some (_, s') => runCmds s' rest
    | none => none

/-- The state produced by a successful `"start"` on a freshly reset
state: the center cell is marked for the engine and the first-move flag
is lowered. -/
def startedOf (s : GameState) : GameState :=
  { GameState.reset s with
    my_board := setCell (GameState.reset s).my_board center center
  , first_move := false }

/-- A 31-by-31 board shape, true of every state the program can reach
(`new` builds it and every mutation preserves row count and row lengths). -/
def wfBoard (s : GameState) : Prop :=
  s.my_board.length = 31 ∧ ∀ r ∈ s.my_board, r.length = 31

/-- Four opponent stones in a row with a one-cell gap at `(13, 15)`:
placing there yields a run of exactly five. -/
def c2FiveState : GameState :=
  { GameState.new with
    opponent_moves := [(11, 15), (12, 15), (14, 15), (15, 15)]
  , first_move := false }

/-- Five opponent stones around the gap at `(13, 15)`: placing there
yields a run of six. -/
def c2SixState : GameState :=
  { GameState.new with
    opponent_moves := [(10, 15), (11, 15), (12, 15), (14, 15), (15, 15)]
  , first_move := false }

/-- A state whose move history `[(15,15), (17,15)]` is a proper initial
segment of exactly one opening-book sequence (the fifth one). -/
def c8State : GameState :=
  { GameState.new with
    opponent_moves := [(15, 15)]
  , total_moves := [(15, 15), (17, 15)] }

/-! ## Helper lemmas -/

theorem oppRunBonus_nonneg (n : Int) : 0 ≤ oppRunBonus n := by
  unfold oppRunBonus; split_ifs <;> norm_num

theorem myRunBonus_nonneg (n : Int) : 0 ≤ myRunBonus n := by
  unfold myRunBonus; split_ifs <;> norm_num

theorem getD_map_false (l : List Bool) (x : Nat) :
    (l.map (fun _ => false)).getD x false = false := by
  induction l generalizing x with
  | nil => simp
  | cons a t ih =>
    cases x with
    | zero => rfl
    | succ x => exact ih x

theorem board_reset_false (b : List (List Bool)) (x y : Nat) :
    ((b.map (fun r => r.map (fun _ => false))).getD y []).getD x false = false := by
  induction b generalizing y with
  | nil => simp
  | cons r t ih =>
    cases y with
    | zero => exact getD_map_false r x
    | succ y => exact ih y

/-! ## Claims -/

/-- Claim C9 (confirmed): `reset` is idempotent — applying it twice
yields the same state as applying it once — and after a `reset` every
board cell is empty of engine stones, both move histories are empty, and
the first-move flag is set. -/
theorem reset_idempotent (s : GameState) :
    GameState.reset (GameState.reset s) = GameState.reset s
    ∧ (∀ x y, (GameState.reset s).is_my_move x y = false)
    ∧ (GameState.reset s).opponent_moves = []
    ∧ (GameState.reset s).total_moves = []
    ∧ (GameState.reset s).first_move = true := by
  refine ⟨?_, fun x y => board_reset_false s.my_board x y, rfl, rfl, rfl⟩
  simp [GameState.reset, List.map_map, Function.comp]

/-- Claim C5 counterexample: for a run of length 3 the defensive
(opponent-blocking) bonus 2000 strictly exceeds the offensive bonus
1000, so defense is not "at most" offense below length four. -/
theorem defense_table_cex :
    oppRunBonus 3 = 2000 ∧ myRunBonus 3 = 1000
    ∧ ¬ (oppRunBonus 3 ≤ myRunBonus 3) := by decide

/-- Claim C5 (amended): at every run length the defensive bonus is at
least the offensive bonus (400 vs 300, 2000 vs 1000, 10000 vs 5000,
equal at five and at unscored lengths) — the inequality of the claim is
reversed. -/
theorem defense_ge_offense (n : Int) : myRunBonus n ≤ oppRunBonus n := by
  unfold myRunBonus oppRunBonus; split_ifs <;> norm_num

/-- Claim C3 (code bug): a syntactically valid `"move"` command whose
coordinate field is the non-numeric string `"abc"` makes
`StrOrUsize::as_usize` call `unwrap` on a failed parse, aborting the
handler (modelled as `none`) instead of returning an error reply. -/
theorem move_nonnumeric_aborts :
    StrOrUsize.asUsize (StrOrUsize.str ("abc")) = none
    ∧ handleCommand GameState.new
        { command := "move"
        , opponentMove := some { x := StrOrUsize.str ("abc"), y := StrOrUsize.num 0 } }
        0 0 = none := by decide

/-- Claim C1 counterexample: after `start` (engine stone at the center),
a `move` command naming the very cell `(15, 15)` occupied by the
engine's stone is still recorded as an opponent move — the handler
checks only for duplicate opponent moves, not engine occupancy — so the
center cell ends up both marked mine and recorded for the opponent. -/
theorem record_on_engine_cell_cex :
    (handleCommand (startedOf GameState.new) (moveCmd 15 15) 0 0).map
      (fun p => (p.2.opponent_moves, p.2.is_my_move 15 15))
      = some ([(15, 15)], true) := by decide

/-- Claim C4 counterexample: a `start` on a fresh state marks the center
cell for the engine yet appends nothing to `total_moves`, so the history
does not contain every stone placed. -/
theorem start_not_in_history_cex :
    (handleCommand GameState.new startCmd 0 0).map
      (fun p => (p.2.total_moves, p.2.is_my_move 15 15)) = some ([], true) := by decide

/-- Claim C2 counterexample: with five opponent stones around the gap at
`(13, 15)`, placing there yields a directional count of six (a run
longer than five), but the run-bonus table awards 0 — not the 100000
five-in-a-row bonus — so the cell scores 99998 (critical-block bonus
minus distance) while the same position with a run of exactly five
scores 199998. -/
theorem overline_no_five_bonus_cex :
    countInLine c2SixState 13 15 1 0 false = 6
    ∧ oppRunBonus (countInLine c2SixState 13 15 1 0 false) = 0
    ∧ scoreCell c2SixState 13 15 = 99998
    ∧ scoreCell c2FiveState 13 15 = 199998 := by decide

/-- Claim C2 (amended): the five-in-a-row bonus of 100000 is awarded for
a direction exactly when that direction's count (the placed stone plus
the two capped arms) equals five — for either side — and it then reaches
the direction's contribution; counts above five fall through the
run-bonus table to 0 (see the counterexample). -/
theorem five_bonus_exact (s : GameState) (x y : Nat) (dx dy : Int) (side : Bool)
    (h : countInLine s x y dx dy side = 5) :
    100000 ≤ dirContrib s x y dx dy
    ∧ (side = false → oppRunBonus (countInLine s x y dx dy false) = 100000)
    ∧ (side = true → myRunBonus (countInLine s x y dx dy true) = 100000) := by
  have hopp := oppRunBonus_nonneg (countInLine s x y dx dy false)
  have hmy := myRunBonus_nonneg (countInLine s x y dx dy true)
  cases side with
  | false =>
    refine ⟨?_, fun _ => ?_, fun hff => Bool.noConfusion hff⟩
    · simp only [dirContrib, h]
      have h100 : oppRunBonus 5 = 100000 := by decide
      rw [h100]
      split_ifs <;> omega
    · rw [h]; decide
  | true =>
    refine ⟨?_, fun htf => Bool.noConfusion htf, fun _ => ?_⟩
    · simp only [dirContrib, h]
      have h100 : myRunBonus 5 = 100000 := by decide
      rw [h100]
      split_ifs <;> omega
    · rw [h]; decide

/-- Witness for the C2 theorem: the gap cell of `c2FiveState` has an
opponent count of exactly five and receives the full bonus. -/
theorem five_bonus_exact_witness :
    countInLine c2FiveState 13 15 1 0 false = 5
    ∧ (100000 ≤ dirContrib c2FiveState 13 15 1 0
       ∧ (false = false → oppRunBonus (countInLine c2FiveState 13 15 1 0 false) = 100000)
       ∧ (false = true → myRunBonus (countInLine c2FiveState 13 15 1 0 true) = 100000)) :=
  ⟨by decide, five_bonus_exact c2FiveState 13 15 1 0 false (by decide)⟩

theorem getD_set_self (l : List α) (i : Nat) (v d : α) (h : i < l.length) :
    (l.set i v).getD i d = v := by
  induction l generalizing i with
  | nil => simp at h
  | cons a t ih =>
    cases i with
    | zero => rfl
    | succ i => exact ih i (Nat.lt_of_succ_lt_succ h)

theorem getD_map_of_lt (l : List α) (f : α → β) (i : Nat) (d : β) (d' : α)
    (h : i < l.length) : (l.map f).getD i d = f (l.getD i d') := by
  induction l generalizing i with
  | nil => simp at h
  | cons a t ih =>
    cases i with
    | zero => rfl
    | succ i => exact ih i (Nat.lt_of_succ_lt_succ h)

theorem getD_mem (l : List α) (i : Nat) (d : α) (h : i < l.length) :
    l.getD i d ∈ l := by
  induction l generalizing i with
  | nil => simp at h
  | cons a t ih =>
    cases i with
    | zero => exact List.mem_cons_self a t
    | succ i => exact List.mem_cons_of_mem a (ih i (Nat.lt_of_succ_lt_succ h))

theorem recordOpp_first (s : GameState) (x y : Nat) :
    (recordOpp s x y).first_move = s.first_move := by
  unfold recordOpp; split <;> rfl

theorem recordOpp_opp (s : GameState) (x y : Nat) :
    (recordOpp s x y).opponent_moves
      = if s.is_opponent_move x y then s.opponent_moves
        else s.opponent_moves ++ [(x, y)] := by
  unfold recordOpp; split <;> simp_all

theorem recordOpp_total (s : GameState) (x y : Nat) :
    (recordOpp s x y).total_moves
      = if s.is_opponent_move x y then s.total_moves
        else s.total_moves ++ [(x, y)] := by
  unfold recordOpp; split <;> simp_all

/-- The handler on a well-formed `"move"` command, reduced to the record
step followed by the selector. -/
theorem handleMove_eq (s : GameState) (ci : CoordIn) (x y : Nat) (d t : Nat)
    (hx : ci.x.asUsize = some x) (hy : ci.y.asUsize = some y) :
    handleCommand s { command := "move", opponentMove := some ci } d t =
      (match findBestMove (recordOpp s x y) d t with
       | some bm =>
         if (recordOpp s x y).is_empty bm.1 bm.2 then
           some (Resp.mv bm.1 bm.2, placeMine (recordOpp s x y) bm.1 bm.2)
         else some (Resp.err ("Move already taken"), recordOpp s x y)
       | none => some (Resp.err ("No valid move found"), recordOpp s x y)) := by
  simp [handleCommand, hx, hy]

/-- Exhaustive description of every reply the dispatch can produce. -/
theorem handleCommand_cases (s : GameState) (c : Command) (d t : Nat)
    (r : Resp) (s' : GameState)
    (h : handleCommand s c d t = some (r, s')) :
    (c.command = ("start") ∧ s.first_move = true ∧ r = Resp.mv 15 15
       ∧ s' = { s with my_board := setCell s.my_board 15 15, first_move := false })
    ∨ (c.command = ("start") ∧ s.first_move = false
       ∧ r = Resp.err ("Not first move") ∧ s' = s)
    ∨ (c.command = ("reset") ∧ r = Resp.reply ("ok") ∧ s' = s.reset)
    ∨ (∃ ci x y, c.command = ("move") ∧ c.opponentMove = some ci
         ∧ ci.x.asUsize = some x ∧ ci.y.asUsize = some y
         ∧ ((∃ bm, findBestMove (recordOpp s x y) d t = some bm
               ∧ (recordOpp s x y).is_empty bm.1 bm.2 = true
               ∧ r = Resp.mv bm.1 bm.2
               ∧ s' = placeMine (recordOpp s x y) bm.1 bm.2)
            ∨ (∃ bm, findBestMove (recordOpp s x y) d t = some bm
                 ∧ (recordOpp s x y).is_empty bm.1 bm.2 = false
                 ∧ r = Resp.err ("Move already taken") ∧ s' = recordOpp s x y)
            ∨ (findBestMove (recordOpp s x y) d t = none
                 ∧ r = Resp.err ("No valid move found") ∧ s' = recordOpp s x y)))
    ∨ (c.command = ("move") ∧ c.opponentMove = none
         ∧ r = Resp.err ("No opponent move") ∧ s' = s)
    ∨ (c.command ≠ ("start") ∧ c.command ≠ ("move") ∧ c.command ≠ ("reset")
         ∧ r = Resp.err ("Unknown command") ∧ s' = s) := by
  unfold handleCommand at h
  by_cases h1 : c.command = ("start")
  · rw [if_pos h1] at h
    by_cases hf : s.first_move = true
    · rw [if_pos hf] at h
      injection h with hp
      injection hp with hr hs
      exact Or.inl ⟨h1, hf, hr.symm, hs.symm⟩
    · rw [if_neg hf] at h
      injection h with hp
      injection hp with hr hs
      exact Or.inr (Or.inl ⟨h1, (Bool.not_eq_true _) ▸ hf, hr.symm, hs.symm⟩)
  · rw [if_neg h1] at h
    by_cases h2 : c.command = ("move")
    · rw [if_pos h2] at h
      rcases hom : c.opponentMove with _ | ci
      · simp only [hom] at h
        injection h with hp
        injection hp with hr hs
        exact Or.inr (Or.inr (Or.inr (Or.inr (Or.inl ⟨h2, rfl, hr.symm, hs.symm⟩))))
      · simp only [hom] at h
        rcases hax : ci.x.asUsize with _ | x
        · simp only [hax] at h
          exact Option.noConfusion h
        simp only [hax] at h
        rcases hay : ci.y.asUsize with _ | y
        · simp only [hay] at h
          exact Option.noConfusion h
        simp only [hay] at h
        refine Or.inr (Or.inr (Or.inr (Or.inl ⟨ci, x, y, h2, rfl, hax, hay, ?_⟩)))
        rcases hfb : findBestMove (recordOpp s x y) d t with _ | bm
        · simp only [hfb] at h
          injection h with hp
          injection hp with hr hs
          exact Or.inr (Or.inr ⟨rfl, hr.symm, hs.symm⟩)
        · simp only [hfb] at h
          by_cases hemp : (recordOpp s x y).is_empty bm.1 bm.2 = true
          · rw [if_pos hemp] at h
            injection h with hp
            injection hp with hr hs
            exact Or.inl ⟨bm, rfl, hemp, hr.symm, hs.symm⟩
          · rw [if_neg hemp] at h
            injection h with hp
            injection hp with hr hs
            exact Or.inr (Or.inl ⟨bm, rfl, (Bool.not_eq_true _) ▸ hemp, hr.symm, hs.symm⟩)
    · rw [if_neg h2] at h
      by_cases h3 : c.command = ("reset")
      · rw [if_pos h3] at h
        injection h with hp
        injection hp with hr hs
        exact Or.inr (Or.inr (Or.inl ⟨h3, hr.symm, hs.symm⟩))
      · rw [if_neg h3] at h
        injection h with hp
        injection hp with hr hs
        exact Or.inr (Or.inr (Or.inr (Or.inr (Or.inr ⟨h1, h2, h3, hr.symm, hs.symm⟩))))

/-- Claim C1 (amended): the opponent-recording step of a `move` command
checks only that the coordinate does not duplicate a previously recorded
opponent move — neither board bounds nor occupancy by the engine's stone
are consulted (the theorem holds for every coordinate pair, in range or
not) — while the engine's own reply is placed only on a cell that is
empty after recording; histories are extended exactly by the recording
and placement. -/
theorem place_and_record_spec (s : GameState) (ci : CoordIn) (x y d t : Nat)
    (hx : ci.x.asUsize = some x) (hy : ci.y.asUsize = some y) :
    ∃ r s',
      handleCommand s { command := "move", opponentMove := some ci } d t
        = some (r, s')
      ∧ s'.opponent_moves = (recordOpp s x y).opponent_moves
      ∧ (s.is_opponent_move x y = true → recordOpp s x y = s)
      ∧ (s.is_opponent_move x y = false →
          (recordOpp s x y).opponent_moves = s.opponent_moves ++ [(x, y)])
      ∧ (∀ bx byy, r = Resp.mv bx byy →
          (recordOpp s x y).is_empty bx byy = true
          ∧ s'.my_board = setCell (recordOpp s x y).my_board bx byy) := by
  have hdup : s.is_opponent_move x y = true → recordOpp s x y = s := by
    intro hd; unfold recordOpp; rw [if_pos hd]
  have hnew : s.is_opponent_move x y = false →
      (recordOpp s x y).opponent_moves = s.opponent_moves ++ [(x, y)] := by
    intro hd; simp [recordOpp_opp, hd]
  rw [handleMove_eq s ci x y d t hx hy]
  rcases hfb : findBestMove (recordOpp s x y) d t with _ | bm
  · exact ⟨Resp.err ("No valid move found"), recordOpp s x y, rfl, rfl,
      hdup, hnew, fun bx byy hr => Resp.noConfusion hr⟩
  · by_cases hemp : (recordOpp s x y).is_empty bm.1 bm.2 = true
    · refine ⟨Resp.mv bm.1 bm.2, placeMine (recordOpp s x y) bm.1 bm.2,
        by simp [hemp], rfl, hdup, hnew, ?_⟩
      intro bx byy hr
      injection hr with hbx hby
      subst hbx; subst hby
      exact ⟨hemp, rfl⟩
    · exact ⟨Resp.err ("Move already taken"), recordOpp s x y,
        by simp [hemp], rfl, hdup, hnew, fun bx byy hr => Resp.noConfusion hr⟩

/-- Witness for the C1 theorem at a fresh state and the in-range numeric
move (3, 4). -/
theorem place_and_record_spec_witness :
    (StrOrUsize.num 3).asUsize = some 3 ∧ (StrOrUsize.num 4).asUsize = some 4
    ∧ (∃ r s',
        handleCommand GameState.new
          { command := "move"
          , opponentMove := some { x := StrOrUsize.num 3, y := StrOrUsize.num 4 } }
          0 0 = some (r, s')
        ∧ s'.opponent_moves = (recordOpp GameState.new 3 4).opponent_moves
        ∧ (GameState.new.is_opponent_move 3 4 = true →
            recordOpp GameState.new 3 4 = GameState.new)
        ∧ (GameState.new.is_opponent_move 3 4 = false →
            (recordOpp GameState.new 3 4).opponent_moves
              = GameState.new.opponent_moves ++ [(3, 4)])
        ∧ (∀ bx byy, r = Resp.mv bx byy →
            (recordOpp GameState.new 3 4).is_empty bx byy = true
            ∧ s'.my_board = setCell (recordOpp GameState.new 3 4).my_board bx byy)) :=
  ⟨rfl, rfl,
    place_and_record_spec GameState.new
      { x := StrOrUsize.num 3, y := StrOrUsize.num 4 } 3 4 0 0 rfl rfl⟩

/-- Claim C4 (amended): `total_moves` is append-only between resets and
is extended exactly by the `move` command (the recorded opponent
coordinate when new, then the engine's reply when one is placed); a
`start` appends nothing — in particular the engine's center stone placed
by `start` is missing from the history — and `reset` clears it. -/
theorem total_moves_append_only (s : GameState) (c : Command) (d t : Nat)
    (r : Resp) (s' : GameState)
    (h : handleCommand s c d t = some (r, s')) :
    (c.command ≠ ("reset") → ∃ tl, s'.total_moves = s.total_moves ++ tl)
    ∧ (c.command = ("start") → s'.total_moves = s.total_moves)
    ∧ (c.command = ("reset") → s'.total_moves = [])
    ∧ (∀ ci x y bx byy, c.command = ("move") → c.opponentMove = some ci →
        ci.x.asUsize = some x → ci.y.asUsize = some y → r = Resp.mv bx byy →
        s'.total_moves = (recordOpp s x y).total_moves ++ [(bx, byy)]) := by
  have hrt : ∀ x y, ∃ tl0,
      (recordOpp s x y).total_moves = s.total_moves ++ tl0 := by
    intro x y
    by_cases hd : s.is_opponent_move x y = true
    · exact ⟨[], by simp [recordOpp_total, hd]⟩
    · exact ⟨[(x, y)], by simp [recordOpp_total, hd]⟩
  rcases handleCommand_cases s c d t r s' h with
    ⟨hc, hf, hr, hs⟩ | ⟨hc, hf, hr, hs⟩ | ⟨hc, hr, hs⟩
    | ⟨ci, x, y, hc, hom, hax, hay, hsub⟩ | ⟨hc, hom, hr, hs⟩
    | ⟨hc1, hc2, hc3, hr, hs⟩
  · refine ⟨fun _ => ⟨[], by simp [hs]⟩, fun _ => by simp [hs],
      fun hcr => by rw [hc] at hcr; exact absurd hcr (by decide), ?_⟩
    intro ci x y bx byy hcm
    rw [hc] at hcm; exact absurd hcm (by decide)
  · refine ⟨fun _ => ⟨[], by simp [hs]⟩, fun _ => by simp [hs],
      fun hcr => by rw [hc] at hcr; exact absurd hcr (by decide), ?_⟩
    intro ci x y bx byy hcm
    rw [hc] at hcm; exact absurd hcm (by decide)
  · refine ⟨fun hcr => absurd hc hcr, fun hcs => ?_, fun _ => ?_, ?_⟩
    · rw [hc] at hcs; exact absurd hcs (by decide)
    · rw [hs]; rfl
    · intro ci x y bx byy hcm
      rw [hc] at hcm; exact absurd hcm (by decide)
  · have h4 : ∀ ci2 x2 y2 bx byy, c.opponentMove = some ci2 →
        ci2.x.asUsize = some x2 → ci2.y.asUsize = some y2 → r = Resp.mv bx byy →
        s'.total_moves = (recordOpp s x2 y2).total_moves ++ [(bx, byy)] := by
      intro ci2 x2 y2 bx byy hom2 hax2 hay2 hr2
      rw [hom] at hom2
      injection hom2 with hci; subst hci
      rw [hax] at hax2; injection hax2 with hx2; subst hx2
      rw [hay] at hay2; injection hay2 with hy2; subst hy2
      rcases hsub with ⟨bm, hfb, hemp, hr, hs⟩ | ⟨bm, hfb, hemp, hr, hs⟩
        | ⟨hfb, hr, hs⟩
      · rw [hr] at hr2
        injection hr2 with hbx hby
        subst hbx; subst hby
        rw [hs]; rfl
      · rw [hr] at hr2; exact Resp.noConfusion hr2
      · rw [hr] at hr2; exact Resp.noConfusion hr2
    refine ⟨fun _ => ?_, fun hcs => ?_, fun hcr => ?_,
      fun ci2 x2 y2 bx byy _ => h4 ci2 x2 y2 bx byy⟩
    · obtain ⟨tl0, ht0⟩ := hrt x y
      rcases hsub with ⟨bm, hfb, hemp, hr, hs⟩ | ⟨bm, hfb, hemp, hr, hs⟩
        | ⟨hfb, hr, hs⟩
      · exact ⟨tl0 ++ [(bm.1, bm.2)], by
          rw [hs]
          show (recordOpp s x y).total_moves ++ [(bm.1, bm.2)]
            = s.total_moves ++ (tl0 ++ [(bm.1, bm.2)])
          rw [ht0, List.append_assoc]⟩
      · exact ⟨tl0, by rw [hs]; exact ht0⟩
      · exact ⟨tl0, by rw [hs]; exact ht0⟩
    · rw [hc] at hcs; exact absurd hcs (by decide)
    · rw [hc] at hcr; exact absurd hcr (by decide)
  · refine ⟨fun _ => ⟨[], by simp [hs]⟩, fun hcs => by simp [hs],
      fun hcr => by rw [hc] at hcr; exact absurd hcr (by decide), ?_⟩
    intro ci x y bx byy hcm hom2
    rw [hom] at hom2; exact Option.noConfusion hom2
  · exact ⟨fun _ => ⟨[], by simp [hs]⟩, fun hcs => absurd hcs hc1,
      fun hcr => absurd hcr hc3,
      fun ci x y bx byy hcm => absurd hcm hc2⟩

/-- Witness for the C4 theorem: a `reset` on the fresh state. -/
theorem total_moves_append_only_witness :
    handleCommand GameState.new { command := "reset", opponentMove := none } 0 0
      = some (Resp.reply ("ok"), GameState.reset GameState.new)
    ∧ ((({ command := "reset", opponentMove := none } : Command).command ≠ ("reset") →
          ∃ tl, (GameState.reset GameState.new).total_moves
            = GameState.new.total_moves ++ tl)
       ∧ (({ command := "reset", opponentMove := none } : Command).command = ("start") →
          (GameState.reset GameState.new).total_moves = GameState.new.total_moves)
       ∧ (({ command := "reset", opponentMove := none } : Command).command = ("reset") →
          (GameState.reset GameState.new).total_moves = [])
       ∧ (∀ ci x y bx byy,
          ({ command := "reset", opponentMove := none } : Command).command = ("move") →
          ({ command := "reset", opponentMove := none } : Command).opponentMove = some ci →
          ci.x.asUsize = some x → ci.y.asUsize = some y →
          Resp.reply ("ok") = Resp.mv bx byy →
          (GameState.reset GameState.new).total_moves
            = (recordOpp GameState.new x y).total_moves ++ [(bx, byy)])) :=
  ⟨by decide,
    total_moves_append_only GameState.new
      { command := "reset", opponentMove := none } 0 0
      (Resp.reply ("ok")) (GameState.reset GameState.new) (by decide)⟩

theorem firstMove_stays (s : GameState) (c : Command) (d t : Nat) (r : Resp)
    (s' : GameState) (h : handleCommand s c d t = some (r, s'))
    (hc : c.command ≠ ("reset")) (hf : s.first_move = false) :
    s'.first_move = false := by
  rcases handleCommand_cases s c d t r s' h with
    ⟨_, hft, _, hs⟩ | ⟨_, _, _, hs⟩ | ⟨hcr, _, _⟩
    | ⟨ci, x, y, _, _, _, _, hsub⟩ | ⟨_, _, _, hs⟩ | ⟨_, _, _, _, hs⟩
  · rw [hf] at hft; exact Bool.noConfusion hft
  · rw [hs]; exact hf
  · exact absurd hcr hc
  · rcases hsub with ⟨bm, _, _, _, hs⟩ | ⟨bm, _, _, _, hs⟩ | ⟨_, _, hs⟩ <;>
      rw [hs] <;> exact (recordOpp_first s x y).trans hf
  · rw [hs]; exact hf
  · rw [hs]; exact hf

theorem runCmds_firstMove (cs : List (Command × Nat × Nat)) :
    ∀ s s2 : GameState, runCmds s cs = some s2 →
      (∀ ct ∈ cs, (ct.1).command ≠ ("reset")) →
      s.first_move = false → s2.first_move = false := by
  induction cs with
  | nil =>
    intro s s2 h _ hf
    injection h with h2
    rw [← h2]; exact hf
  | cons head tail ih =>
    intro s s2 h hres hf
    obtain ⟨c, d, t⟩ := head
    unfold runCmds at h
    rcases hh : handleCommand s c d t with _ | p
    · rw [hh] at h; exact Option.noConfusion h
    · obtain ⟨r, s'⟩ := p
      rw [hh] at h
      refine ih s' s2 h (fun ct hm => hres ct (List.mem_cons_of_mem _ hm)) ?_
      exact firstMove_stays s c d t r s' hh
        (hres (c, d, t) (List.mem_cons_self _ _)) hf

/-- Claim C7 (confirmed): on a freshly reset state (board shape
well-formed, as every reachable state is) a `start` command places the
engine's stone at the exact center `(15, 15)` and returns it; after that
`start`, as long as no `reset` intervenes — any successful run of
non-reset commands — a second `start` returns the "Not first move" error
and leaves the state untouched. -/
theorem start_center_second_errors (s s2 : GameState) (d t d2 t2 : Nat)
    (cs : List (Command × Nat × Nat))
    (hwf : wfBoard s)
    (hrun : runCmds (startedOf s) cs = some s2)
    (hnr : ∀ ct ∈ cs, (ct.1).command ≠ ("reset")) :
    handleCommand (GameState.reset s) startCmd d t
      = some (Resp.mv 15 15, startedOf s)
    ∧ (startedOf s).is_my_move 15 15 = true
    ∧ handleCommand s2 startCmd d2 t2
      = some (Resp.err ("Not first move"), s2) := by
  refine ⟨rfl, ?_, ?_⟩
  · have hlen : (GameState.reset s).my_board.length = 31 := by
      simp [GameState.reset, hwf.1]
    have hrow15 : (GameState.reset s).my_board.getD 15 []
        = (s.my_board.getD 15 []).map (fun _ => false) := by
      have h15 : (15 : Nat) < s.my_board.length := by rw [hwf.1]; omega
      exact getD_map_of_lt s.my_board (fun row => row.map (fun _ => false)) 15 [] [] h15
    have hrowlen : ((GameState.reset s).my_board.getD 15 []).length = 31 := by
      rw [hrow15, List.length_map]
      exact hwf.2 (s.my_board.getD 15 [])
        (getD_mem s.my_board 15 [] (by rw [hwf.1]; omega))
    show ((setCell (GameState.reset s).my_board 15 15).getD 15 []).getD 15 false = true
    unfold setCell
    rw [getD_set_self _ 15 _ [] (by rw [hlen]; omega)]
    rw [getD_set_self _ 15 true false (by rw [hrowlen]; omega)]
  · have h2f : s2.first_move = false :=
      runCmds_firstMove cs (startedOf s) s2 hrun hnr rfl
    simp [handleCommand, startCmd, h2f]

/-- Witness for the C7 theorem: the fresh state, with no intervening
commands between the two `start`s. -/
theorem start_center_second_errors_witness :
    wfBoard GameState.new
    ∧ runCmds (startedOf GameState.new) [] = some (startedOf GameState.new)
    ∧ (∀ ct ∈ ([] : List (Command × Nat × Nat)), (ct.1).command ≠ ("reset"))
    ∧ (handleCommand (GameState.reset GameState.new) startCmd 0 0
         = some (Resp.mv 15 15, startedOf GameState.new)
       ∧ (startedOf GameState.new).is_my_move 15 15 = true
       ∧ handleCommand (startedOf GameState.new) startCmd 0 0
           = some (Resp.err ("Not first move"), startedOf GameState.new)) :=
  ⟨by constructor <;> decide, rfl, by simp,
    start_center_second_errors GameState.new (startedOf GameState.new)
      0 0 0 0 [] (by constructor <;> decide) rfl (by simp)⟩

/-- Claim C10 (confirmed): the `move` handler never consults the
first-move flag — it is accepted even before any `start`, records the
opponent stone (when not a duplicate), never produces the "Not first
move" sequencing error, preserves the flag, and a subsequent `start` in
the same match still succeeds and unconditionally places at the center
`(15, 15)`. -/
theorem move_ignores_first_flag (s : GameState) (ci : CoordIn)
    (x y d t d2 t2 : Nat)
    (hx : ci.x.asUsize = some x) (hy : ci.y.asUsize = some y) :
    ∃ r s',
      handleCommand s { command := "move", opponentMove := some ci } d t
        = some (r, s')
      ∧ r ≠ Resp.err ("Not first move")
      ∧ s'.first_move = s.first_move
      ∧ (s.is_opponent_move x y = false →
          s'.opponent_moves = s.opponent_moves ++ [(x, y)])
      ∧ (s.first_move = true →
          handleCommand s' startCmd d2 t2
            = some (Resp.mv 15 15,
                { s' with my_board := setCell s'.my_board 15 15
                        , first_move := false })) := by
  have hstart : ∀ s0 : GameState, s0.first_move = true →
      handleCommand s0 startCmd d2 t2
        = some (Resp.mv 15 15,
            { s0 with my_board := setCell s0.my_board 15 15
                    , first_move := false }) := by
    intro s0 h0
    simp [handleCommand, startCmd, h0, center]
  have hnew : s.is_opponent_move x y = false →
      (recordOpp s x y).opponent_moves = s.opponent_moves ++ [(x, y)] := by
    intro hd; simp [recordOpp_opp, hd]
  rw [handleMove_eq s ci x y d t hx hy]
  rcases hfb : findBestMove (recordOpp s x y) d t with _ | bm
  · refine ⟨Resp.err ("No valid move found"), recordOpp s x y, rfl,
      by decide, recordOpp_first s x y, hnew, ?_⟩
    intro hft
    exact hstart _ ((recordOpp_first s x y).trans hft)
  · by_cases hemp : (recordOpp s x y).is_empty bm.1 bm.2 = true
    · refine ⟨Resp.mv bm.1 bm.2, placeMine (recordOpp s x y) bm.1 bm.2,
        by simp [hemp], fun hcon => Resp.noConfusion hcon,
        recordOpp_first s x y, hnew, ?_⟩
      intro hft
      exact hstart _ ((recordOpp_first s x y).trans hft)
    · refine ⟨Resp.err ("Move already taken"), recordOpp s x y,
        by simp [hemp], by decide, recordOpp_first s x y, hnew, ?_⟩
      intro hft
      exact hstart _ ((recordOpp_first s x y).trans hft)

/-- Witness for the C10 theorem: a `move` at (16, 15) on the fresh state
(no `start` has been issued yet). -/
theorem move_ignores_first_flag_witness :
    (StrOrUsize.num 16).asUsize = some 16
    ∧ (StrOrUsize.num 15).asUsize = some 15
    ∧ (∃ r s',
        handleCommand GameState.new
          { command := "move"
          , opponentMove := some { x := StrOrUsize.num 16, y := StrOrUsize.num 15 } }
          0 0 = some (r, s')
        ∧ r ≠ Resp.err ("Not first move")
        ∧ s'.first_move = GameState.new.first_move
        ∧ (GameState.new.is_opponent_move 16 15 = false →
            s'.opponent_moves = GameState.new.opponent_moves ++ [(16, 15)])
        ∧ (GameState.new.first_move = true →
            handleCommand s' startCmd 0 0
              = some (Resp.mv 15 15,
                  { s' with my_board := setCell s'.my_board 15 15
                          , first_move := false }))) :=
  ⟨rfl, rfl,
    move_ignores_first_flag GameState.new
      { x := StrOrUsize.num 16, y := StrOrUsize.num 15 } 16 15 0 0 0 0 rfl rfl⟩

theorem leadsOrEq_true_of_strict (tm d : List (Nat × Nat))
    (h : strictLeads tm d = true) : leadsOrEq tm d = true := by
  unfold strictLeads at h
  exact (Bool.and_eq_true _ _).mp h |>.1

theorem strictLeads_lt (tm d : List (Nat × Nat))
    (h : strictLeads tm d = true) : tm.length < d.length := by
  unfold strictLeads at h
  exact of_decide_eq_true ((Bool.and_eq_true _ _).mp h |>.2)

theorem mem_of_getElem_some (l : List α) (i : Nat) (a : α)
    (h : l[i]? = some a) : a ∈ l := by
  induction l generalizing i with
  | nil => simp at h
  | cons x xs ih =>
    cases i with
    | zero =>
      rw [List.getElem?_cons_zero] at h
      injection h with h0
      rw [← h0]; exact List.mem_cons_self x xs
    | succ i =>
      rw [List.getElem?_cons_succ] at h
      exact List.mem_cons_of_mem x (ih i h)

theorem debutTable_len : ∀ d ∈ debutTable, d.length = 4 := by decide

/-- Claim C8 (confirmed): when the move history is a proper initial
segment of exactly one opening-book sequence, `get_debut_move` returns
that sequence's next entry whenever that cell is still empty (and no
suggestion when it is occupied), for every value of the random pick; and
when no sequence has the history as a proper initial segment it returns
no suggestion, upon which `find_best_move` falls through to the full
scan. -/
theorem debut_unique_next (s : GameState) (dpick : Nat)
    (hdeb : s.all_debuts = debutTable) :
    (∀ d0 nxt, debutTable.filter (fun d => strictLeads s.total_moves d) = [d0] →
        d0[s.total_moves.length]? = some nxt →
        getDebutMove s dpick
          = if s.is_empty nxt.1 nxt.2 then some nxt else none)
    ∧ (debutTable.filter (fun d => strictLeads s.total_moves d) = [] →
        getDebutMove s dpick = none)
    ∧ (∀ tpick, getDebutMove s dpick = none →
        findBestMove s dpick tpick = chooseIdx (bestFold s).2 tpick) := by
  refine ⟨?_, ?_, ?_⟩
  · intro d0 nxt hfil hnxt
    have hd0mem : d0 ∈ debutTable.filter (fun d => strictLeads s.total_moves d) := by
      rw [hfil]; exact List.mem_singleton.mpr rfl
    have hd0 := List.mem_filter.mp hd0mem
    have hlt : s.total_moves.length < d0.length := strictLeads_lt _ _ hd0.2
    have hlen0 : d0.length = 4 := debutTable_len d0 hd0.1
    have hfeq : debutTable.filter (fun d => leadsOrEq s.total_moves d)
        = debutTable.filter (fun d => strictLeads s.total_moves d) := by
      apply List.filter_congr
      intro d hd
      have h4 : d.length = 4 := debutTable_len d hd
      unfold strictLeads
      have hdec : decide (s.total_moves.length < d.length) = true :=
        decide_eq_true (by omega)
      rw [hdec, Bool.and_true]
    have hvalid : s.all_debuts.filter (fun d => leadsOrEq s.total_moves d) = [d0] := by
      rw [hdeb, hfeq, hfil]
    simp only [getDebutMove, hvalid, List.length_singleton, Nat.mod_one,
      List.getElem?_cons_zero, if_pos hlt, hnxt]
  · intro hfil
    simp only [getDebutMove]
    rcases hval : (s.all_debuts.filter
        (fun d => leadsOrEq s.total_moves d))[dpick %
          (s.all_debuts.filter (fun d => leadsOrEq s.total_moves d)).length]?
      with _ | debut
    · rfl
    · have hmem : debut ∈ s.all_debuts.filter (fun d => leadsOrEq s.total_moves d) :=
        mem_of_getElem_some _ _ _ hval
      rw [hdeb] at hmem
      have hmf := List.mem_filter.mp hmem
      have hnot : ¬ strictLeads s.total_moves debut = true :=
        (List.filter_eq_nil_iff.mp hfil) debut hmf.1
      have hge : ¬ (s.total_moves.length < debut.length) := by
        intro hlt
        exact hnot (by unfold strictLeads; rw [hmf.2, decide_eq_true hlt]; rfl)
      exact if_neg hge
  · intro tpick hnone
    unfold findBestMove
    rw [hnone]

/-- Witness for the C8 theorem: the history `[(15,15), (17,15)]` is a
proper initial segment of exactly the fifth book sequence, whose next
entry `(13, 13)` is empty; the pick value 7 is arbitrary. -/
theorem debut_unique_next_witness :
    c8State.all_debuts = debutTable
    ∧ debutTable.filter (fun d => strictLeads c8State.total_moves d)
        = [[(15, 15), (17, 15), (13, 13), (14, 16)]]
    ∧ ([(15, 15), (17, 15), (13, 13), (14, 16)] :
        List (Nat × Nat))[c8State.total_moves.length]? = some (13, 13)
    ∧ getDebutMove c8State 7
        = if c8State.is_empty 13 13 then some (13, 13) else none :=
  ⟨rfl, by decide, by decide,
    (debut_unique_next c8State 7 rfl).1
      [(15, 15), (17, 15), (13, 13), (14, 16)] (13, 13) (by decide) (by decide)⟩

theorem foldlMax_le_init (l : List Int) : ∀ b : Int, b ≤ l.foldl max b := by
  induction l with
  | nil => intro b; exact le_refl b
  | cons a t ih => intro b; exact le_trans (le_max_left b a) (ih (max b a))

theorem foldlMax_mem_le (l : List Int) : ∀ (b a : Int), a ∈ l → a ≤ l.foldl max b := by
  induction l with
  | nil => intro b a ha; exact absurd ha (List.not_mem_nil a)
  | cons x t ih =>
    intro b a ha
    rcases List.mem_cons.mp ha with h | h
    · rw [h, List.foldl_cons]
      exact le_trans (le_max_right b x) (foldlMax_le_init t (max b x))
    · exact ih (max b x) a h

theorem foldlMax_attained (l : List Int) :
    ∀ b : Int, l.foldl max b = b ∨ l.foldl max b ∈ l := by
  induction l with
  | nil => intro b; exact Or.inl rfl
  | cons x t ih =>
    intro b
    rcases ih (max b x) with h | h
    · rcases max_choice b x with hm | hm
      · exact Or.inl (by rw [List.foldl_cons, h, hm])
      · exact Or.inr (by
          rw [List.foldl_cons, h, hm]; exact List.mem_cons_self x t)
    · exact Or.inr (List.mem_cons_of_mem x (by rw [List.foldl_cons]; exact h))

theorem dirContrib_nonneg (s : GameState) (x y : Nat) (dx dy : Int) :
    0 ≤ dirContrib s x y dx dy := by
  have h1 := oppRunBonus_nonneg (countInLine s x y dx dy false)
  have h2 := myRunBonus_nonneg (countInLine s x y dx dy true)
  simp only [dirContrib]
  split_ifs <;> omega

theorem dirFold_fst_mono (s : GameState) (x y : Nat) :
    ∀ (ds : List (Int × Int)) (acc : Int × Bool × Nat × Nat),
      acc.1 ≤ (ds.foldl (dirStep s x y) acc).1 := by
  intro ds
  induction ds with
  | nil => intro acc; exact le_refl _
  | cons d t ih =>
    intro acc
    rw [List.foldl_cons]
    refine le_trans ?_ (ih (dirStep s x y acc d))
    show acc.1 ≤ acc.1 + dirContrib s x y d.1 d.2
    have := dirContrib_nonneg s x y d.1 d.2
    omega

theorem scoreCell_expand (s : GameState) (x y : Nat) :
    scoreCell s x y
      = (directions.foldl (dirStep s x y) (0, false, 0, 0)).1
        + (if 2 ≤ (directions.foldl (dirStep s x y) (0, false, 0, 0)).2.2.1
           then 5000 else 0)
        + (if 2 ≤ (directions.foldl (dirStep s x y) (0, false, 0, 0)).2.2.2
           then 7000 else 0)
        + (if (directions.foldl (dirStep s x y) (0, false, 0, 0)).2.1
           then 100000 else 0)
        - ((((x : Int) - 15).natAbs + (((y : Int) - 15).natAbs) : Nat) : Int) := rfl

theorem scoreCell_lb (s : GameState) (x y : Nat) (hx : x < 31) (hy : y < 31) :
    -30 ≤ scoreCell s x y := by
  rw [scoreCell_expand]
  have hr := dirFold_fst_mono s x y directions (0, false, 0, 0)
  split_ifs <;> omega

theorem cells_lt : ∀ c ∈ cells, c.1 < 31 ∧ c.2 < 31 := by
  intro c hc
  rcases List.mem_map.mp hc with ⟨i, hi, rfl⟩
  have h961 : i < 31 * 31 := List.mem_range.mp hi
  constructor <;> [skip; skip] <;> simp only [] <;> omega

theorem filter_cons_posP (s : GameState) (c0 : Nat × Nat) (t : List (Nat × Nat))
    (h : s.is_empty c0.1 c0.2 = true) :
    (c0 :: t).filter (fun c => s.is_empty c.1 c.2)
      = c0 :: t.filter (fun c => s.is_empty c.1 c.2) :=
  List.filter_cons_of_pos h

theorem filter_cons_negP (s : GameState) (c0 : Nat × Nat) (t : List (Nat × Nat))
    (h : ¬ s.is_empty c0.1 c0.2 = true) :
    (c0 :: t).filter (fun c => s.is_empty c.1 c.2)
      = t.filter (fun c => s.is_empty c.1 c.2) :=
  List.filter_cons_of_neg h

theorem filter_append_q (s : GameState) (X : Int) (l1 l2 : List (Nat × Nat)) :
    (l1 ++ l2).filter (fun c => scoreCell s c.1 c.2 == X)
      = l1.filter (fun c => scoreCell s c.1 c.2 == X)
        ++ l2.filter (fun c => scoreCell s c.1 c.2 == X) :=
  List.filter_append _ _

theorem filter_cons_neg_q (s : GameState) (X : Int) (c0 : Nat × Nat)
    (l : List (Nat × Nat)) (h : ¬ (scoreCell s c0.1 c0.2 == X) = true) :
    (c0 :: l).filter (fun c => scoreCell s c.1 c.2 == X)
      = l.filter (fun c => scoreCell s c.1 c.2 == X) :=
  List.filter_cons_of_neg h

theorem bmFold_inv (s : GameState) :
    ∀ (l : List (Nat × Nat)) (b : Int) (m : List (Nat × Nat)),
      (∀ c ∈ m, s.is_empty c.1 c.2 = true ∧ scoreCell s c.1 c.2 = b) →
      (l.foldl (bmStep s) (b, m)).1
        = ((l.filter (fun c => s.is_empty c.1 c.2)).map
            (fun c => scoreCell s c.1 c.2)).foldl max b
      ∧ (l.foldl (bmStep s) (b, m)).2
        = (m ++ l.filter (fun c => s.is_empty c.1 c.2)).filter
            (fun c => scoreCell s c.1 c.2 == (l.foldl (bmStep s) (b, m)).1) := by
  intro l
  induction l with
  | nil =>
    intro b m hm
    refine ⟨rfl, ?_⟩
    simp only [List.foldl_nil, List.filter_nil, List.append_nil]
    symm
    rw [List.filter_eq_self]
    intro c hc
    have hcb := (hm c hc).2
    simp [hcb]
  | cons c0 t ih =>
    intro b m hm
    by_cases hce : s.is_empty c0.1 c0.2 = true
    · rcases lt_trichotomy b (scoreCell s c0.1 c0.2) with hlt | heq | hgt
      · -- strictly better score: the candidate list restarts at c0
        have hstep : bmStep s (b, m) c0 = (scoreCell s c0.1 c0.2, [c0]) := by
          unfold bmStep
          rw [if_pos hce, if_pos hlt]
        have hm' : ∀ c ∈ [c0], s.is_empty c.1 c.2 = true
            ∧ scoreCell s c.1 c.2 = scoreCell s c0.1 c0.2 := by
          intro c hc
          rw [List.mem_singleton] at hc
          subst hc
          exact ⟨hce, rfl⟩
        obtain ⟨ih1, ih2⟩ := ih (scoreCell s c0.1 c0.2) [c0] hm'
        have hfold : (c0 :: t).foldl (bmStep s) (b, m)
            = t.foldl (bmStep s) (scoreCell s c0.1 c0.2, [c0]) := by
          rw [List.foldl_cons, hstep]
        constructor
        · rw [hfold, ih1, filter_cons_posP s c0 t hce, List.map_cons,
            List.foldl_cons]
          congr 1
          exact (max_eq_right (le_of_lt hlt)).symm
        · rw [hfold, ih2, filter_cons_posP s c0 t hce]
          have hX : scoreCell s c0.1 c0.2
              ≤ (t.foldl (bmStep s) (scoreCell s c0.1 c0.2, [c0])).1 := by
            rw [ih1]; exact foldlMax_le_init _ _
          generalize hXg : (t.foldl (bmStep s) (scoreCell s c0.1 c0.2, [c0])).1 = X
          rw [hXg] at hX
          rw [filter_append_q s X m
            (c0 :: t.filter (fun c => s.is_empty c.1 c.2))]
          have hmnil : m.filter (fun c => scoreCell s c.1 c.2 == X) = [] := by
            rw [List.filter_eq_nil_iff]
            intro c hc
            have hcb := (hm c hc).2
            simp only [beq_iff_eq, hcb]
            intro hcon
            omega
          rw [hmnil, List.nil_append]
          rfl
      · -- equal score: the candidate is appended
        have hstep : bmStep s (b, m) c0 = (b, m ++ [c0]) := by
          unfold bmStep
          rw [if_pos hce, if_neg (by omega), if_pos heq.symm]
        have hm' : ∀ c ∈ m ++ [c0], s.is_empty c.1 c.2 = true
            ∧ scoreCell s c.1 c.2 = b := by
          intro c hc
          rcases List.mem_append.mp hc with h | h
          · exact hm c h
          · rw [List.mem_singleton] at h
            subst h
            exact ⟨hce, heq.symm⟩
        obtain ⟨ih1, ih2⟩ := ih b (m ++ [c0]) hm'
        have hfold : (c0 :: t).foldl (bmStep s) (b, m)
            = t.foldl (bmStep s) (b, m ++ [c0]) := by
          rw [List.foldl_cons, hstep]
        constructor
        · rw [hfold, ih1, filter_cons_posP s c0 t hce, List.map_cons,
            List.foldl_cons]
          congr 1
          rw [← heq, max_self]
        · rw [hfold, ih2, filter_cons_posP s c0 t hce, List.append_assoc]
          rfl
      · -- worse score: the candidate is skipped
        have hstep : bmStep s (b, m) c0 = (b, m) := by
          unfold bmStep
          rw [if_pos hce, if_neg (by omega), if_neg (by omega)]
        obtain ⟨ih1, ih2⟩ := ih b m hm
        have hfold : (c0 :: t).foldl (bmStep s) (b, m)
            = t.foldl (bmStep s) (b, m) := by
          rw [List.foldl_cons, hstep]
        constructor
        · rw [hfold, ih1, filter_cons_posP s c0 t hce, List.map_cons,
            List.foldl_cons]
          congr 1
          exact (max_eq_left (le_of_lt hgt)).symm
        · rw [hfold, ih2, filter_cons_posP s c0 t hce]
          have hX : b ≤ (t.foldl (bmStep s) (b, m)).1 := by
            rw [ih1]; exact foldlMax_le_init _ _
          generalize hXg : (t.foldl (bmStep s) (b, m)).1 = X
          rw [hXg] at hX
          rw [filter_append_q s X m (t.filter (fun c => s.is_empty c.1 c.2)),
            filter_append_q s X m
              (c0 :: t.filter (fun c => s.is_empty c.1 c.2))]
          have hqc : ¬ ((scoreCell s c0.1 c0.2 == X) = true) := by
            rw [beq_iff_eq]
            intro hcon
            omega
          rw [filter_cons_neg_q s X c0
            (t.filter (fun c => s.is_empty c.1 c.2)) hqc]
    · -- occupied cell: skipped entirely
      have hstep : bmStep s (b, m) c0 = (b, m) := by
        unfold bmStep
        rw [if_neg hce]
      obtain ⟨ih1, ih2⟩ := ih b m hm
      have hfold : (c0 :: t).foldl (bmStep s) (b, m)
          = t.foldl (bmStep s) (b, m) := by
        rw [List.foldl_cons, hstep]
      constructor
      · rw [hfold, ih1, filter_cons_negP s c0 t hce]
      · rw [hfold, ih2, filter_cons_negP s c0 t hce]

theorem chooseIdx_some_of_ne (l : List α) (hne : l ≠ []) (pick : Nat) :
    ∃ a, chooseIdx l pick = some a ∧ a ∈ l := by
  have hlen : 0 < l.length := List.length_pos.mpr hne
  have hidx : pick % l.length < l.length := Nat.mod_lt _ hlen
  refine ⟨l.get ⟨pick % l.length, hidx⟩, ?_, ?_⟩
  · exact List.getElem?_eq_getElem hidx
  · exact mem_of_getElem_some l _ _ (List.getElem?_eq_getElem hidx)

theorem mem_index_own (l : List α) (a : α) (h : a ∈ l) :
    ∃ i : Nat, i < l.length ∧ l[i]? = some a := by
  induction l with
  | nil => exact absurd h (List.not_mem_nil a)
  | cons x t ih =>
    rcases List.mem_cons.mp h with h0 | h0
    · exact ⟨0, by simp, by rw [List.getElem?_cons_zero, h0]⟩
    · obtain ⟨i, hi, hig⟩ := ih h0
      exact ⟨i + 1, by simpa using Nat.succ_lt_succ hi,
        by rw [List.getElem?_cons_succ]; exact hig⟩

section

attribute [local irreducible] cells scoreCell

/-- Claim C6 (confirmed): when the opening book yields no suggestion and
an empty cell exists, `find_best_move` returns an empty cell whose
(deterministic) score — which includes the Manhattan-distance penalty
inside `scoreCell` — equals the maximum score over all empty cells; the
candidate list it draws from is exactly the set of empty cells achieving
that maximum (in scan order), every pick lands in that list, and every
member of the list is returned for some pick, which is the uniform
tie-break over the maximizers. -/
theorem best_scan_max (s : GameState) (dpick tpick : Nat)
    (hdeb : getDebutMove s dpick = none)
    (hne : ∃ c, c ∈ cells ∧ s.is_empty c.1 c.2 = true) :
    ∃ m, findBestMove s dpick tpick = some m
      ∧ m ∈ (bestFold s).2
      ∧ s.is_empty m.1 m.2 = true
      ∧ scoreCell s m.1 m.2 = (bestFold s).1
      ∧ (∀ c, c ∈ cells → s.is_empty c.1 c.2 = true →
          scoreCell s c.1 c.2 ≤ (bestFold s).1)
      ∧ (bestFold s).2
          = (cells.filter (fun c => s.is_empty c.1 c.2)).filter
              (fun c => scoreCell s c.1 c.2 == (bestFold s).1)
      ∧ (∀ c, c ∈ (bestFold s).2 → ∃ t2, findBestMove s dpick t2 = some c) := by
  obtain ⟨inv1, inv2⟩ := bmFold_inv s cells i32Min []
    (fun c hc => absurd hc (List.not_mem_nil c))
  have hb1 : (bestFold s).1
      = ((cells.filter (fun c => s.is_empty c.1 c.2)).map
          (fun c => scoreCell s c.1 c.2)).foldl max i32Min := by
    unfold bestFold
    exact inv1
  have hb2 : (bestFold s).2
      = (cells.filter (fun c => s.is_empty c.1 c.2)).filter
          (fun c => scoreCell s c.1 c.2 == (bestFold s).1) := by
    unfold bestFold
    rw [inv2, List.nil_append]
  obtain ⟨c0, hc0mem, hc0emp⟩ := hne
  have hc0L : c0 ∈ cells.filter (fun c => s.is_empty c.1 c.2) :=
    List.mem_filter.mpr ⟨hc0mem, hc0emp⟩
  have hc0sc : scoreCell s c0.1 c0.2
      ∈ (cells.filter (fun c => s.is_empty c.1 c.2)).map
          (fun c => scoreCell s c.1 c.2) :=
    List.mem_map.mpr ⟨c0, hc0L, rfl⟩
  have hub : ∀ c, c ∈ cells → s.is_empty c.1 c.2 = true →
      scoreCell s c.1 c.2 ≤ (bestFold s).1 := by
    intro c hc he
    rw [hb1]
    exact foldlMax_mem_le _ _ _
      (List.mem_map.mpr ⟨c, List.mem_filter.mpr ⟨hc, he⟩, rfl⟩)
  have hc0lb : -30 ≤ scoreCell s c0.1 c0.2 :=
    scoreCell_lb s c0.1 c0.2 (cells_lt c0 hc0mem).1 (cells_lt c0 hc0mem).2
  have hatt : (bestFold s).1
      ∈ (cells.filter (fun c => s.is_empty c.1 c.2)).map
          (fun c => scoreCell s c.1 c.2) := by
    rcases foldlMax_attained ((cells.filter (fun c => s.is_empty c.1 c.2)).map
        (fun c => scoreCell s c.1 c.2)) i32Min with h | h
    · exfalso
      have hle := foldlMax_mem_le ((cells.filter
          (fun c => s.is_empty c.1 c.2)).map
          (fun c => scoreCell s c.1 c.2)) i32Min _ hc0sc
      rw [h] at hle
      unfold i32Min at hle
      omega
    · rw [hb1]; exact h
  obtain ⟨cmax, hcmaxL, hcmaxsc⟩ := List.mem_map.mp hatt
  have hcmaxB : cmax ∈ (bestFold s).2 := by
    rw [hb2]
    refine List.mem_filter.mpr ⟨hcmaxL, ?_⟩
    rw [beq_iff_eq]
    exact hcmaxsc
  have hBne : (bestFold s).2 ≠ [] := by
    intro hnil
    rw [hnil] at hcmaxB
    exact absurd hcmaxB (List.not_mem_nil cmax)
  have hprops : ∀ c ∈ (bestFold s).2,
      s.is_empty c.1 c.2 = true ∧ scoreCell s c.1 c.2 = (bestFold s).1 := by
    intro c hc
    rw [hb2] at hc
    have h1 := List.mem_filter.mp hc
    have h2 := List.mem_filter.mp h1.1
    refine ⟨h2.2, ?_⟩
    have hq := h1.2
    rwa [beq_iff_eq] at hq
  obtain ⟨m0, hm0eq, hm0mem⟩ := chooseIdx_some_of_ne (bestFold s).2 hBne tpick
  have hfbm : findBestMove s dpick tpick = some m0 := by
    unfold findBestMove
    rw [hdeb]
    exact hm0eq
  refine ⟨m0, hfbm, hm0mem, (hprops m0 hm0mem).1, (hprops m0 hm0mem).2,
    hub, hb2, ?_⟩
  intro c hc
  obtain ⟨i, hi, hig⟩ := mem_index_own (bestFold s).2 c hc
  refine ⟨i, ?_⟩
  unfold findBestMove
  rw [hdeb]
  unfold chooseIdx
  rw [Nat.mod_eq_of_lt hi]
  exact hig

end

set_option maxRecDepth 8192 in
/-- Witness for the C6 theorem: right after `start` the book is dead
(every sequence starts at the now-occupied center), while `(0, 0)` is an
empty cell. -/
theorem best_scan_max_witness :
    getDebutMove (startedOf GameState.new) 0 = none
    ∧ ((0, 0) ∈ cells ∧ (startedOf GameState.new).is_empty 0 0 = true)
    ∧ (∃ m, findBestMove (startedOf GameState.new) 0 0 = some m
        ∧ m ∈ (bestFold (startedOf GameState.new)).2
        ∧ (startedOf GameState.new).is_empty m.1 m.2 = true
        ∧ scoreCell (startedOf GameState.new) m.1 m.2
            = (bestFold (startedOf GameState.new)).1
        ∧ (∀ c, c ∈ cells → (startedOf GameState.new).is_empty c.1 c.2 = true →
            scoreCell (startedOf GameState.new) c.1 c.2
              ≤ (bestFold (startedOf GameState.new)).1)
        ∧ (bestFold (startedOf GameState.new)).2
            = (cells.filter
                (fun c => (startedOf GameState.new).is_empty c.1 c.2)).filter
                (fun c => scoreCell (startedOf GameState.new) c.1 c.2
                  == (bestFold (startedOf GameState.new)).1)
        ∧ (∀ c, c ∈ (bestFold (startedOf GameState.new)).2 →
            ∃ t2, findBestMove (startedOf GameState.new) 0 t2 = some c)) :=
  ⟨by decide, ⟨by decide, by decide⟩,
    best_scan_max (startedOf GameState.new) 0 0 (by decide)
      ⟨(0, 0), by decide, by decide⟩⟩
